import Mathlib

/-!
Shallow embedding of `native/fsNotifier/linux/inotify.c` (the Linux
inotify backend of the IntelliJ file-watcher daemon) and proofs about it.

The C file is embedded function by function:
* `add_watch`   → `Inotify.addWatch`
* `watch_limit_reached` → `Inotify.watchLimitReached`
* `rm_watch`    → `Inotify.rmWatchF` / `Inotify.rmWatch`
* `walk_tree`   → `Inotify.walkTree` (directory loop: `Inotify.walkLoop`)
* `watch`       → `Inotify.watch`
* `unwatch`     → `Inotify.unwatch`
* `process_inotify_event` → `Inotify.processInotifyEvent`
* `process_inotify_input` → `Inotify.processInotifyInput`

External effects (inotify_add_watch, opendir, stat, realpath) are an
explicit environment `Inotify.Env`; mutable process state (the watch
table, the one-time limit flag) is an explicit `Inotify.State` threaded
through the operations.  Two ghost observation fields are added to the
state: `kernel` logs every successful kernel watch registration and every
kernel watch removal, and `callbacks` logs every invocation of the change
callback; neither influences control flow.  Per the spec's data-model
design note, parent/child links of the C pointer tree are represented as
watch-handle references resolved through the table.  Recursion of
`walk_tree` and `rm_watch` is bounded by explicit fuel (`walkTree`
returns `none` when fuel runs out; `rmWatch` uses the table size, which
bounds the depth of every acyclic parent/child structure the operations
maintain).
-/

namespace Inotify

/-- errno values used by the C file (from `<errno.h>`, Linux). -/
def EPERM : Nat := 1
def ENOENT : Nat := 2
def EIO : Nat := 5
def EACCES : Nat := 13
def ENOTDIR : Nat := 20
def ENOSPC : Nat := 28
def ELOOP : Nat := 40
def ENAMETOOLONG : Nat := 36

/-- Modelled from the spec: the outcome sentinels of `fsnotifier.h` (the
header is not part of the sources here).  §3 and design note §9 describe
them as distinct negative integers multiplexed with valid (nonnegative)
kernel handles: `Ignore`, `Continue`, `Abort`, `Missing`. -/
def ERR_IGNORE : Int := -1
def ERR_CONTINUE : Int := -2
def ERR_ABORT : Int := -3
def ERR_MISSING : Int := -4

/-- File kind as reported by `stat` (`S_ISREG` / `S_ISDIR` / anything else). -/
inductive FileKind
  | regular
  | directory
  | other
deriving DecidableEq, Repr

/-- Entry type hint of `struct dirent`: `DT_DIR`, `DT_UNKNOWN`, or any other type. -/
inductive DType
  | dir
  | unknown
  | other
deriving DecidableEq, Repr

/-- One directory entry returned by `readdir`. -/
structure Dirent where
  name : String
  dtype : DType
deriving DecidableEq, Repr

/-- Ghost log entry: a successful `inotify_add_watch` or an
`inotify_rm_watch` call. -/
inductive KOp
  | add (wd : Int) (path : String)
  | rm (wd : Int)
deriving DecidableEq, Repr

/-- Node type `watch_node`: handle, parent back-reference, tombstone-capable child
collection, and the alias path list (`paths`, first entry primary).
Parent and children are handle references resolved through the table. -/
structure WatchNode where
  wd : Int
  parent : Option Int
  kids : List (Option Int)
  paths : List String
deriving DecidableEq, Repr

/-- The mutable process state of the C file: the watch table (`watches`),
the one-time limit flag (`limit_reached`), plus ghost observation logs:
`msgs` counts `message(MSG_WATCH_LIMIT)` emissions, `callbacks` logs
change-callback invocations, `kernel` logs kernel watch calls. -/
structure State where
  watches : List (Int × WatchNode)
  limitReached : Bool
  msgs : Nat
  callbacks : List (String × Nat)
  kernel : List KOp
deriving DecidableEq, Repr

/-- The external environment: kernel and filesystem calls made by the C
file, as pure functions keyed by the path they are given. -/
structure Env where
  addwatch : String → Except Nat Int
  opendir : String → Except Nat (List Dirent)
  realpath : String → Option String
  stat : String → Except Nat FileKind

/-- Lookup `table_get`. -/
def tableGet (s : State) (wd : Int) : Option WatchNode :=
  (s.watches.find? (fun kv => kv.1 == wd)).map (fun kv => kv.2)

/-- Insertion `table_put(watches, wd, node)` with a non-null node: replace or add. -/
def tablePut (s : State) (wd : Int) (n : WatchNode) : State :=
  { s with watches := s.watches.filter (fun kv => kv.1 != wd) ++ [(wd, n)] }

/-- Removal `table_put(watches, wd, NULL)`: remove the entry. -/
def tableRemove (s : State) (wd : Int) : State :=
  { s with watches := s.watches.filter (fun kv => kv.1 != wd) }

/-- In-place mutation of the node a table entry owns (the C code mutates
the node through its pointer; here the entry is rewritten). -/
def tableModify (s : State) (wd : Int) (f : WatchNode → WatchNode) : State :=
  { s with watches := s.watches.map (fun kv => if kv.1 == wd then (kv.1, f kv.2) else kv) }

/-- Ghost log of a successful `inotify_add_watch`. -/
def logAdd (s : State) (wd : Int) (path : String) : State :=
  { s with kernel := s.kernel ++ [KOp.add wd path] }

/-- Ghost log of an `inotify_rm_watch` call. -/
def logRm (s : State) (wd : Int) : State :=
  { s with kernel := s.kernel ++ [KOp.rm wd] }

/-- Ghost log of a change-callback invocation `(*callback)(path, mask)`. -/
def pushCallback (s : State) (path : String) (mask : Nat) : State :=
  { s with callbacks := s.callbacks ++ [(path, mask)] }

/-- Byte-wise `strncmp(s, p, strlen(p)) == 0`: `p` is a prefix of `s`. -/
def startsWithStr (s p : String) : Bool :=
  p.data.isPrefixOf s.data

/-- Monitor `watch_limit_reached`: raise `MSG_WATCH_LIMIT` only the first time. -/
def watchLimitReached (s : State) : State :=
  if s.limitReached then s
  else { s with limitReached := true, msgs := s.msgs + 1 }

/-- Possible verdicts of the alias loop of `add_watch` (lines 154-167). -/
inductive ScanResult
  | abort
  | ignore
  | append
deriving DecidableEq, Repr

/-- The alias loop of `add_watch`: for each existing alias that differs
from the new path as a string, canonicalize both sides; a failed
canonicalization aborts, equal real paths mean the same directory was
reached again; an alias equal to the new path as a string is skipped
without any comparison.  Falling off the end means a new alias is
appended. -/
def aliasScan (env : Env) (path : String) (normNew : Option String) :
    List String → ScanResult
  | [] => ScanResult.append
  | wp :: rest =>
    if wp = path then aliasScan env path normNew rest
    else
      match env.realpath wp, normNew with
      | none, _ => ScanResult.abort
      | some _, none => ScanResult.abort
      | some n1, some n2 =>
        if n1 = n2 then ScanResult.ignore
        else aliasScan env path normNew rest

/-- Function `add_watch(path_len, parent)` with `path_buf = path`.  Returns the
multiplexed outcome (`wd ≥ 0` or a negative sentinel) and the new state.
Allocation failure paths (`CHECK_NULL`, `table_put` returning NULL) are
not modelled: allocation always succeeds. -/
def addWatch (env : Env) (path : String) (parent : Option Int) (s : State) :
    Int × State :=
  match env.addwatch path with
  | Except.error e =>
    if e = EACCES ∨ e = ENOENT then (ERR_IGNORE, s)
    else if e = ENOSPC then (ERR_CONTINUE, watchLimitReached s)
    else (ERR_ABORT, s)
  | Except.ok wd =>
    let s0 := logAdd s wd path
    match tableGet s0 wd with
    | some node =>
      if node.wd = wd then
        match aliasScan env path (env.realpath path) node.paths with
        | ScanResult.abort => (ERR_ABORT, s0)
        | ScanResult.ignore => (ERR_IGNORE, s0)
        | ScanResult.append =>
          (wd, tableModify s0 wd (fun n => { n with paths := n.paths ++ [path] }))
      else (ERR_ABORT, s0)
    | none =>
      let node : WatchNode := { wd := wd, parent := parent, kids := [], paths := [path] }
      let s1 :=
        match parent with
        | some p => tableModify s0 p (fun pn => { pn with kids := pn.kids ++ [some wd] })
        | none => s0
      (wd, tablePut s1 wd node)

/-- Tombstone the first slot of `parentWd`'s child collection that holds
the node `wd` (`array_put(node->parent->kids, i, NULL)` after the pointer
comparison loop). -/
def setFirstMatch : List (Option Int) → Int → List (Option Int)
  | [], _ => []
  | slot :: rest, wd =>
    if slot = some wd then none :: rest else slot :: setFirstMatch rest wd

/-- Function `rm_watch(wd, update_parent)` with explicit fuel bounding the
recursion depth (sufficient for every acyclic parent/child structure;
the C code would not terminate on a cyclic one either). -/
def rmWatchF : Nat → Int → Bool → State → State
  | 0, _, _, s => s
  | fuel + 1, wd, updateParent, s =>
    match tableGet s wd with
    | none => s
    | some node =>
      let s1 := logRm s node.wd
      let s2 := node.kids.foldl
        (fun acc slot =>
          match slot with
          | none => acc
          | some kidWd => rmWatchF fuel kidWd false acc) s1
      let s3 :=
        if updateParent then
          match node.parent with
          | some p => tableModify s2 p (fun pn => { pn with kids := setFirstMatch pn.kids wd })
          | none => s2
        else s2
      tableRemove s3 wd

/-- Function `rm_watch(wd, update_parent)` with the canonical fuel (table size). -/
def rmWatch (wd : Int) (updateParent : Bool) (s : State) : State :=
  rmWatchF s.watches.length wd updateParent s

/-- Function `unwatch(id)`. -/
def unwatch (s : State) (id : Int) : State :=
  rmWatch id true s

/-- The `readdir` loop of `walk_tree` (lines 283-311), over the entry
list `opendir` produced.  `walk` is the recursive `walk_tree` call with
the fuel, `recursive` flag and mount set already fixed; the parent
argument of each recursive call is `table_get(watches, id)` evaluated on
the current table.  A child outcome that is negative and differs from
`ERR_IGNORE` removes the node `id` just registered (with its subtree)
and short-circuits the remaining entries. -/
def walkLoop (env : Env) (walk : String → Option Int → State → Option (Int × State))
    (path : String) (id : Int) :
    List Dirent → State → Option (Int × State)
  | [], s => some (id, s)
  | e :: rest, s =>
    if e.name = "." ∨ e.name = ".." then walkLoop env walk path id rest s
    else if e.dtype ≠ DType.unknown ∧ e.dtype ≠ DType.dir then
      walkLoop env walk path id rest s
    else
      let childPath := path ++ "/" ++ e.name
      let proceed : Bool :=
        match e.dtype with
        | DType.unknown =>
          match env.stat childPath with
          | Except.error _ => false
          | Except.ok k => k = FileKind.directory
        | _ => true
      if proceed then
        match walk childPath (if (tableGet s id).isSome then some id else none) s with
        | none => none
        | some (sub, s') =>
          if sub < 0 ∧ sub ≠ ERR_IGNORE then some (sub, rmWatch id true s')
          else walkLoop env walk path id rest s'
      else walkLoop env walk path id rest s

/-- Function `walk_tree(path_len, parent, recursive, mounts)` with `path_buf =
path`.  Fuel bounds the recursion depth; `none` means the fuel ran out
before the walk finished.  The mount-prefix check runs first, before the
`recursive` test; opening the directory happens only when `recursive`;
the entry loop runs only when the directory was opened and `add_watch`
succeeded. -/
def walkTree (env : Env) : Nat → String → Option Int → Bool → List String →
    State → Option (Int × State)
  | 0, _, _, _, _, _ => none
  | fuel + 1, path, parent, recursive, mounts, s =>
    if mounts.any (fun m => startsWithStr path m) then some (ERR_IGNORE, s)
    else
      match (if recursive then some (env.opendir path) else none) with
      | some (Except.error e) =>
        if e = EACCES ∨ e = ENOENT ∨ e = ENOTDIR then some (ERR_IGNORE, s)
        else some (ERR_CONTINUE, s)
      | some (Except.ok entries) =>
        let r := addWatch env path parent s
        if r.1 < 0 then some r
        else walkLoop env
          (fun p par st => walkTree env fuel p par recursive mounts st)
          path r.1 entries r.2
      | none =>
        some (addWatch env path parent s)

/-- Function `watch(root, mounts)`: strip a leading `|` (non-recursive request),
strip one trailing `/`, stat the root (the `|`-stripped, slash-kept
string, as the C code does), classify the stat result, then enter
`walk_tree` with no parent. -/
def pipeStripped (root : String) : String :=
  if root.data.head? = some '|' then String.mk (root.data.drop 1) else root

def slashStripped (p : String) : String :=
  if p.data.getLast? = some '/' then String.mk p.data.dropLast else p

def watch (env : Env) (fuel : Nat) (root : String) (mounts : List String)
    (s : State) : Option (Int × State) :=
  let root1 := pipeStripped root
  let recursive0 := root.data.head? ≠ some '|'
  let path := slashStripped root1
  match env.stat root1 with
  | Except.error e =>
    if e = ENOENT then some (ERR_MISSING, s)
    else if e = EACCES ∨ e = ELOOP ∨ e = ENAMETOOLONG ∨ e = ENOTDIR then
      some (ERR_CONTINUE, s)
    else some (ERR_ABORT, s)
  | Except.ok FileKind.regular => walkTree env fuel path none false mounts s
  | Except.ok FileKind.directory => walkTree env fuel path none recursive0 mounts s
  | Except.ok FileKind.other => some (ERR_IGNORE, s)

/-- One inotify event, with the mask bits the C file tests broken out
into fields (`IN_ISDIR`, `IN_CREATE`, `IN_MOVED_TO`, `IN_DELETE`,
`IN_MOVED_FROM`, `IN_IGNORED`, `IN_Q_OVERFLOW`); `raw` is the numeric
mask handed to the callback, `name` is the carried name when
`event->len > 0`. -/
structure InotifyEvent where
  wd : Int
  isDir : Bool
  create : Bool
  movedTo : Bool
  del : Bool
  movedFrom : Bool
  ignored : Bool
  qOverflow : Bool
  name : Option String
  raw : Nat
deriving DecidableEq, Repr

/-- The child scan of the delete/move-out branch (lines 396-408).  The C
code reads `array_size(kid->paths)` before its null test of `kid`, so a
tombstoned (NULL) slot is dereferenced: modelled as `none` (undefined
behaviour), as is a dangling child handle.  A single-alias child whose
alias is a prefix of the affected path is removed via
`rm_watch(kid->wd, false)` and its slot in the parent's child collection
is tombstoned; a multi-alias child is skipped (the `//TODO` branch). -/
def scanKids (s : State) (nodeWd : Int) (fullPath : String) :
    List (Option Int) → Nat → Option State
  | [], _ => some s
  | slot :: rest, i =>
    match slot with
    | none => none
    | some kidWd =>
      match tableGet s kidWd with
      | none => none
      | some kid =>
        if kid.paths.length = 1 then
          if startsWithStr fullPath (kid.paths.headD "") then
            some (tableModify (rmWatch kidWd false s) nodeWd
              (fun n => { n with kids := n.kids.set i none }))
          else scanKids s nodeWd fullPath rest (i + 1)
        else scanKids s nodeWd fullPath rest (i + 1)

/-- The delete/move-out branch of `process_inotify_event` (lines
395-409): scan the live child collection of the event's node. -/
def deleteBranch (ev : InotifyEvent) (nodeWd : Int) (fullPath : String)
    (s : State) : Option State :=
  if ev.isDir ∧ (ev.del ∨ ev.movedFrom) then
    match tableGet s nodeWd with
    | none => none
    | some node => scanKids s nodeWd fullPath node.kids 0
  else some s

/-- The per-alias loop of `process_inotify_event` (lines 373-410),
index-based as in the C code: the loop bound `array_size(node->paths)`
and the element `array_get(node->paths, i)` are re-read through the
live node pointer on EVERY iteration, so aliases the create-branch
rewalk appends to the event's own node are seen and processed by later
iterations.  A vanished node entry models the then-dangling pointer
(undefined behaviour, `none`); `lf` is loop fuel, with `none` on
exhaustion marking an iteration count the model did not finish (the C
loop can grow `node->paths` faster than it consumes it).  Each
iteration: build the affected path, invoke the callback, run the
create/move-in rewalk (note the `NULL` mounts argument, modelled as
`[]`), stop with failure on a fatal rewalk outcome, then run the
delete/move-out child scan. -/
def processAliases (env : Env) (fuel : Nat) (ev : InotifyEvent) (nodeWd : Int) :
    Nat → Nat → State → Option (Bool × State)
  | _, 0, _ => none
  | i, lf + 1, s =>
    match tableGet s nodeWd with
    | none => none
    | some node =>
      if i < node.paths.length then
        let wp := node.paths.getD i ""
        let fullPath := match ev.name with | some n => wp ++ "/" ++ n | none => wp
        let s1 := pushCallback s fullPath ev.raw
        match (if ev.isDir ∧ (ev.create ∨ ev.movedTo) then
                match walkTree env fuel fullPath (some nodeWd) true [] s1 with
                | none => none
                | some (r, s2) =>
                  if r < 0 ∧ r ≠ ERR_IGNORE ∧ r ≠ ERR_CONTINUE then
                    some (Sum.inl s2)
                  else some (Sum.inr s2)
              else some (Sum.inr s1)) with
        | none => none
        | some (Sum.inl s2) => some (false, s2)
        | some (Sum.inr s2) =>
          match deleteBranch ev nodeWd fullPath s2 with
          | none => none
          | some s3 => processAliases env fuel ev nodeWd (i + 1) lf s3
      else some (true, s)

/-- Function `process_inotify_event(event)`: resolve the handle (an unresolved
handle is a skip), then run the live per-alias loop from index 0.
`none` models undefined behaviour (a null or dangling pointer
dereference) or exhausted fuel; the loop fuel `fuel + 1` bounds the
number of alias iterations the model follows. -/
def processInotifyEvent (env : Env) (fuel : Nat) (ev : InotifyEvent)
    (s : State) : Option (Bool × State) :=
  match tableGet s ev.wd with
  | none => some (true, s)
  | some _ => processAliases env fuel ev ev.wd 0 (fuel + 1) s

/-- The event loop of `process_inotify_input` (lines 423-439) over an
already-read batch of events: skip `IN_IGNORED` and `IN_Q_OVERFLOW`
events, stop the whole batch with failure as soon as one event fails. -/
def processInotifyInput (env : Env) (fuel : Nat) :
    List InotifyEvent → State → Option (Bool × State)
  | [], s => some (true, s)
  | ev :: rest, s =>
    if ev.ignored ∨ ev.qOverflow then processInotifyInput env fuel rest s
    else
      match processInotifyEvent env fuel ev s with
      | none => none
      | some (true, s') => processInotifyInput env fuel rest s'
      | some (false, s') => some (false, s')

/-- One `add_watch` invocation: the environment giving the kernel's
answer, the path, and the parent node. -/
structure AddAttempt where
  env : Env
  path : String
  parent : Option Int

/-- A sequence of `add_watch` registration attempts, run in order. -/
def runAdds : List AddAttempt → State → State
  | [], s => s
  | a :: rest, s => runAdds rest (addWatch a.env a.path a.parent s).2

/-- Whether an attempt's kernel call fails with `ENOSPC`. -/
def attemptEnospc (a : AddAttempt) : Bool :=
  match a.env.addwatch a.path with
  | Except.error e => e == ENOSPC
  | Except.ok _ => false

/-! ### State-projection helper lemmas -/

@[simp] lemma tablePut_limitReached (s : State) (wd : Int) (n : WatchNode) :
    (tablePut s wd n).limitReached = s.limitReached := rfl

@[simp] lemma tablePut_msgs (s : State) (wd : Int) (n : WatchNode) :
    (tablePut s wd n).msgs = s.msgs := rfl

@[simp] lemma tableRemove_limitReached (s : State) (wd : Int) :
    (tableRemove s wd).limitReached = s.limitReached := rfl

@[simp] lemma tableRemove_msgs (s : State) (wd : Int) :
    (tableRemove s wd).msgs = s.msgs := rfl

@[simp] lemma tableModify_limitReached (s : State) (wd : Int) (f : WatchNode → WatchNode) :
    (tableModify s wd f).limitReached = s.limitReached := rfl

@[simp] lemma tableModify_msgs (s : State) (wd : Int) (f : WatchNode → WatchNode) :
    (tableModify s wd f).msgs = s.msgs := rfl

@[simp] lemma logAdd_limitReached (s : State) (wd : Int) (p : String) :
    (logAdd s wd p).limitReached = s.limitReached := rfl

@[simp] lemma logAdd_msgs (s : State) (wd : Int) (p : String) :
    (logAdd s wd p).msgs = s.msgs := rfl

@[simp] lemma logRm_limitReached (s : State) (wd : Int) :
    (logRm s wd).limitReached = s.limitReached := rfl

@[simp] lemma logRm_msgs (s : State) (wd : Int) :
    (logRm s wd).msgs = s.msgs := rfl

@[simp] lemma pushCallback_limitReached (s : State) (p : String) (m : Nat) :
    (pushCallback s p m).limitReached = s.limitReached := rfl

@[simp] lemma pushCallback_msgs (s : State) (p : String) (m : Nat) :
    (pushCallback s p m).msgs = s.msgs := rfl

/-! ### Table lemmas -/

lemma find?_filter_ne (l : List (Int × WatchNode)) (wd : Int) :
    (l.filter (fun kv => kv.1 != wd)).find? (fun kv => kv.1 == wd) = none := by
  rw [List.find?_eq_none]
  intro x hx
  have h2 := (List.mem_filter.mp hx).2
  simp only [bne_iff_ne, ne_eq] at h2
  simp [h2]

lemma tableGet_tableRemove (s : State) (wd : Int) :
    tableGet (tableRemove s wd) wd = none := by
  simp [tableGet, tableRemove, find?_filter_ne]

/-- Removal `rm_watch` on an unresolved handle is a no-op for every fuel. -/
lemma rmWatchF_not_found (fuel : Nat) (wd : Int) (b : Bool) (s : State)
    (h : tableGet s wd = none) : rmWatchF fuel wd b s = s := by
  cases fuel with
  | zero => rfl
  | succ n => simp [rmWatchF, h]

/-- When the handle resolves, `rm_watch` ends by clearing its table
entry, so afterwards the handle no longer resolves. -/
lemma tableGet_rmWatchF_succ (n : Nat) (wd : Int) (b : Bool) (s : State)
    (node : WatchNode) (h : tableGet s wd = some node) :
    tableGet (rmWatchF (n + 1) wd b s) wd = none := by
  simp [rmWatchF, h, tableGet_tableRemove]

/-- A nonempty table when a lookup succeeds. -/
lemma watches_length_pos (s : State) (wd : Int) (node : WatchNode)
    (h : tableGet s wd = some node) : s.watches.length ≠ 0 := by
  intro h0
  rw [List.length_eq_zero] at h0
  simp [tableGet, h0] at h

/-- C9: `unwatch` is idempotent.  A handle with no table entry is a
no-op leaving the state unchanged, and for every handle in every state,
applying `unwatch` twice yields the same state as applying it once. -/
theorem unwatch_idempotent (s : State) (id : Int) :
    (tableGet s id = none → unwatch s id = s) ∧
    unwatch (unwatch s id) id = unwatch s id := by
  constructor
  · intro h
    exact rmWatchF_not_found _ _ _ _ h
  · cases h : tableGet s id with
    | none =>
      have h1 : unwatch s id = s := rmWatchF_not_found _ _ _ _ h
      rw [h1]
      exact h1
    | some node =>
      have hlen := watches_length_pos s id node h
      obtain ⟨k, hk⟩ : ∃ k, s.watches.length = k + 1 := by
        cases hL : s.watches.length with
        | zero => exact absurd hL hlen
        | succ k => exact ⟨k, rfl⟩
      have hnone : tableGet (unwatch s id) id = none := by
        unfold unwatch rmWatch
        rw [hk]
        exact tableGet_rmWatchF_succ k id true s node h
      exact rmWatchF_not_found _ _ _ _ hnone

/-- The empty initial state (`table_create` result with nothing added). -/
def st0 : State :=
  { watches := [], limitReached := false, msgs := 0, callbacks := [], kernel := [] }

/-- C9 witness: `unwatch` of an unknown handle on the fresh state,
twice, via `unwatch_idempotent`. -/
theorem unwatch_idempotent_witness :
    unwatch st0 5 = st0 ∧ unwatch (unwatch st0 5) 5 = unwatch st0 5 :=
  ⟨(unwatch_idempotent st0 5).1 rfl, (unwatch_idempotent st0 5).2⟩

/-- C8: a root whose stat fails with `ENOENT` yields `Missing` and the
state — watch table, kernel log, everything — is returned unchanged. -/
theorem watch_missing_unchanged (env : Env) (fuel : Nat) (root : String)
    (mounts : List String) (s : State)
    (h : env.stat (pipeStripped root) = Except.error ENOENT) :
    watch env fuel root mounts s = some (ERR_MISSING, s) := by
  unfold watch
  simp [h]

/-- Environment for the C8 witness: every stat fails with `ENOENT`. -/
def envMissing : Env :=
  { addwatch := fun _ => Except.error EPERM,
    opendir := fun _ => Except.error ENOENT,
    realpath := fun _ => none,
    stat := fun _ => Except.error ENOENT }

/-- C8 witness: watching a nonexistent root on the fresh state. -/
theorem watch_missing_unchanged_witness :
    watch envMissing 7 "/gone" ["/mnt"] st0 = some (ERR_MISSING, st0) :=
  watch_missing_unchanged envMissing 7 "/gone" ["/mnt"] st0 rfl

/-- C3 (amended): the mount-prefix check of `walk_tree` runs before the
`recursive` test, so EVERY invocation — recursive or not — whose path
extends a declared mount prefix returns `Ignore` with the state
unchanged. -/
theorem walkTree_mount_ignore (env : Env) (fuel : Nat) (path : String)
    (parent : Option Int) (recursive : Bool) (mounts : List String) (s : State)
    (h : mounts.any (fun m => startsWithStr path m) = true) :
    walkTree env (fuel + 1) path parent recursive mounts s = some (ERR_IGNORE, s) := by
  simp [walkTree, h]

/-- Environment for the C3 theorems: the kernel would hand out handle 4. -/
def envC3 : Env :=
  { addwatch := fun _ => Except.ok 4,
    opendir := fun _ => Except.error ENOENT,
    realpath := fun p => some p,
    stat := fun _ => Except.ok FileKind.directory }

/-- C3 witness: a non-recursive invocation under a mount prefix returns
`Ignore`, via `walkTree_mount_ignore`. -/
theorem walkTree_mount_ignore_witness :
    walkTree envC3 1 "/mnt/dev" none false ["/mnt"] st0 = some (ERR_IGNORE, st0) :=
  walkTree_mount_ignore envC3 0 "/mnt/dev" none false ["/mnt"] st0 (by decide)

/-- C3 counterexample: for a NON-recursive invocation the mount set does
change the outcome, contrary to the claim — with the mount prefix the
result is `Ignore`, without it the path is registered and handle 4 is
returned. -/
theorem walkTree_mount_nonrecursive_cex :
    walkTree envC3 1 "/mnt/dev" none false ["/mnt"] st0 = some (ERR_IGNORE, st0) ∧
    (walkTree envC3 1 "/mnt/dev" none false [] st0).map Prod.fst = some 4 := by
  constructor <;> decide

/-! ### WatchLimitMonitor (C6, C7) -/

lemma watchLimitReached_flag (s : State) : (watchLimitReached s).limitReached = true := by
  unfold watchLimitReached
  split <;> simp_all

lemma watchLimitReached_msgs (s : State) (h : s.msgs = if s.limitReached then 1 else 0) :
    (watchLimitReached s).msgs = 1 := by
  unfold watchLimitReached
  split <;> simp_all

/-- An `add_watch` whose kernel call does not fail with `ENOSPC` leaves
the one-time flag and the notification count untouched. -/
lemma addWatch_flags_preserved (env : Env) (p : String) (parent : Option Int)
    (s : State) (h : ∀ e, env.addwatch p = Except.error e → e ≠ ENOSPC) :
    (addWatch env p parent s).2.limitReached = s.limitReached ∧
    (addWatch env p parent s).2.msgs = s.msgs := by
  unfold addWatch
  cases hres : env.addwatch p with
  | error e =>
    have hne := h e hres
    by_cases h1 : e = EACCES ∨ e = ENOENT
    · simp [h1]
    · simp [h1, hne]
  | ok wd =>
    cases hn : tableGet (logAdd s wd p) wd with
    | some node =>
      by_cases hw : node.wd = wd
      · cases hscan : aliasScan env p (env.realpath p) node.paths <;>
          simp [hn, hw, hscan]
      · simp [hn, hw]
    | none => cases parent <;> simp [hn]

/-- An `add_watch` whose kernel call fails with `ENOSPC` returns
`Continue` and routes through `watch_limit_reached`. -/
lemma addWatch_enospc (env : Env) (p : String) (parent : Option Int) (s : State)
    (h : env.addwatch p = Except.error ENOSPC) :
    addWatch env p parent s = (ERR_CONTINUE, watchLimitReached s) := by
  unfold addWatch
  rw [h]
  norm_num [ENOSPC, EACCES, ENOENT]

/-- Invariant transport: running any sequence of registration attempts
keeps `msgs = (limit ever hit ? 1 : 0)`. -/
lemma runAdds_msgs (seq : List AddAttempt) :
    ∀ s : State, s.msgs = (if s.limitReached then 1 else 0) →
      (runAdds seq s).msgs =
        (if s.limitReached ∨ seq.any attemptEnospc then 1 else 0) := by
  induction seq with
  | nil => intro s h; simpa using h
  | cons a rest ih =>
    intro s h
    by_cases hsp : attemptEnospc a = true
    · obtain ⟨e, he, hee⟩ : ∃ e, a.env.addwatch a.path = Except.error e ∧ e = ENOSPC := by
        unfold attemptEnospc at hsp
        cases hres : a.env.addwatch a.path with
        | error e => rw [hres] at hsp; exact ⟨e, rfl, by simpa using hsp⟩
        | ok wd => rw [hres] at hsp; simp at hsp
      subst hee
      have hstep := addWatch_enospc a.env a.path a.parent s he
      show (runAdds rest (addWatch a.env a.path a.parent s).2).msgs = _
      rw [hstep]
      have h1 : (watchLimitReached s).msgs = 1 := watchLimitReached_msgs s h
      have h2 := watchLimitReached_flag s
      rw [ih (watchLimitReached s) (by rw [h1, h2]; rfl)]
      simp [h2, hsp]
    · have hne : ∀ e, a.env.addwatch a.path = Except.error e → e ≠ ENOSPC := by
        intro e he
        unfold attemptEnospc at hsp
        rw [he] at hsp
        simpa using hsp
      obtain ⟨hf, hm⟩ := addWatch_flags_preserved a.env a.path a.parent s hne
      show (runAdds rest (addWatch a.env a.path a.parent s).2).msgs = _
      rw [ih _ (by rw [hm, hf]; exact h)]
      rw [hf]
      simp only [List.any_cons, hsp]
      simp [Bool.false_or]

/-- C6: starting from a fresh process state, across ANY sequence of
registration attempts the limit-reached notification is emitted exactly
once when some attempt fails with `ENOSPC` (the first one raises it,
later ones find the flag set and stay silent) and never otherwise. -/
theorem watch_limit_exactly_once (seq : List AddAttempt) (s : State)
    (hflag : s.limitReached = false) (hmsgs : s.msgs = 0) :
    (runAdds seq s).msgs = (if seq.any attemptEnospc then 1 else 0) := by
  have := runAdds_msgs seq s (by rw [hmsgs, hflag]; rfl)
  rw [hflag] at this
  simpa using this

/-- An environment whose kernel always answers `ENOSPC`. -/
def envEnospc : Env :=
  { addwatch := fun _ => Except.error ENOSPC,
    opendir := fun _ => Except.error ENOENT,
    realpath := fun p => some p,
    stat := fun _ => Except.ok FileKind.directory }

/-- C6 witness: three consecutive `ENOSPC` registrations from the fresh
state emit exactly one notification, via `watch_limit_exactly_once`. -/
theorem watch_limit_exactly_once_witness :
    (runAdds [⟨envEnospc, "/a", none⟩, ⟨envEnospc, "/b", none⟩, ⟨envEnospc, "/c", none⟩] st0).msgs = 1 := by
  have := watch_limit_exactly_once
    [⟨envEnospc, "/a", none⟩, ⟨envEnospc, "/b", none⟩, ⟨envEnospc, "/c", none⟩] st0 rfl rfl
  simpa using this

/-- C7 (amended): the kernel-failure mapping of `add_watch` is exactly
`EACCES`/`ENOENT` to `Ignore`, `ENOSPC` to `Continue` plus the one-shot
limit notifier, anything else to `Abort`; on kernel success the result
is the kernel handle, or `Ignore` (an existing alias of the same handle
canonicalizes to the same real path), or `Abort` (stored-handle
mismatch or failed canonicalization). -/
theorem addWatch_outcome_mapping (env : Env) (p : String) (parent : Option Int)
    (s : State) :
    (∀ e, env.addwatch p = Except.error e →
      addWatch env p parent s =
        (if e = EACCES ∨ e = ENOENT then (ERR_IGNORE, s)
         else if e = ENOSPC then (ERR_CONTINUE, watchLimitReached s)
         else (ERR_ABORT, s))) ∧
    (∀ wd, env.addwatch p = Except.ok wd →
      (addWatch env p parent s).1 = wd ∨
      (addWatch env p parent s).1 = ERR_IGNORE ∨
      (addWatch env p parent s).1 = ERR_ABORT) := by
  constructor
  · intro e he
    unfold addWatch
    rw [he]
  · intro wd hw
    unfold addWatch
    rw [hw]
    cases hn : tableGet (logAdd s wd p) wd with
    | some node =>
      by_cases hww : node.wd = wd
      · cases hscan : aliasScan env p (env.realpath p) node.paths <;>
          simp [hn, hww, hscan]
      · simp [hn, hww]
    | none => cases parent <;> simp [hn]

/-- Environment for the C7 witness and counterexample: the kernel issues
handle 7 for `/y`, and `/x`, `/y` canonicalize to the same real path. -/
def envC7 : Env :=
  { addwatch := fun p => if p = "/y" then Except.ok 7 else Except.error ENOSPC,
    opendir := fun _ => Except.error ENOENT,
    realpath := fun _ => some "/real",
    stat := fun _ => Except.ok FileKind.directory }

/-- Pre-state for C7: handle 7 already owns a node with alias `/x`. -/
def sC7 : State :=
  { watches := [(7, { wd := 7, parent := none, kids := [], paths := ["/x"] })],
    limitReached := false, msgs := 0, callbacks := [], kernel := [] }

/-- C7 witness: an `ENOSPC` failure maps to `Continue` and rings the
limit monitor, via `addWatch_outcome_mapping`. -/
theorem addWatch_outcome_mapping_witness :
    addWatch envC7 "/z" none st0 = (ERR_CONTINUE, watchLimitReached st0) := by
  have := (addWatch_outcome_mapping envC7 "/z" none st0).1 ENOSPC rfl
  simpa using this

/-- C7 counterexample: on kernel success the result can be the error
sentinel `Ignore`, not the kernel handle — registering `/y` while handle
7 already holds alias `/x` with the same real path. -/
theorem addWatch_success_sentinel_cex :
    envC7.addwatch "/y" = Except.ok 7 ∧
    (addWatch envC7 "/y" none sC7).1 = ERR_IGNORE ∧ ERR_IGNORE < 0 := by
  refine ⟨rfl, by decide, by decide⟩

/-! ### walk_tree child outcome handling (C1) -/

/-- C1 (amended): in the `readdir` loop of `walk_tree`, a recursive call
on a directory entry that returns `Ignore` or a valid handle lets the
loop proceed to the remaining siblings with the node kept; ANY negative
outcome other than `Ignore` — `Continue` included — removes the node
just registered together with everything beneath it
(`rm_watch(id, true)`) and propagates that outcome immediately,
short-circuiting the remaining siblings. -/
theorem walkLoop_child_outcome (env : Env)
    (walk : String → Option Int → State → Option (Int × State))
    (path : String) (id : Int) (n : String) (rest : List Dirent)
    (s s' : State) (r : Int)
    (hdot : ¬ (n = "." ∨ n = ".."))
    (hw : walk (path ++ "/" ++ n) (if (tableGet s id).isSome then some id else none) s =
      some (r, s')) :
    (r < 0 ∧ r ≠ ERR_IGNORE →
      walkLoop env walk path id ({ name := n, dtype := DType.dir } :: rest) s =
        some (r, rmWatch id true s')) ∧
    ((r = ERR_IGNORE ∨ 0 ≤ r) →
      walkLoop env walk path id ({ name := n, dtype := DType.dir } :: rest) s =
        walkLoop env walk path id rest s') := by
  have hbody : walkLoop env walk path id ({ name := n, dtype := DType.dir } :: rest) s =
      if r < 0 ∧ r ≠ ERR_IGNORE then some (r, rmWatch id true s')
      else walkLoop env walk path id rest s' := by
    simp only [walkLoop, hdot, if_false]
    norm_num
    rw [hw]
  constructor
  · intro hr
    rw [hbody, if_pos hr]
  · intro hr
    rw [hbody, if_neg]
    rcases hr with h | h
    · exact fun hc => hc.2 h
    · exact fun hc => absurd hc.1 (by omega)

/-- Environment for the C1 theorems: `/a` holds subdirectories `b` and
`c`; opening `/a/b` fails with `EIO`, which makes the recursive call on
`b` return `Continue`. -/
def envC1 : Env :=
  { addwatch := fun p =>
      if p = "/a" then Except.ok 1
      else if p = "/a/c" then Except.ok 3
      else Except.error EPERM,
    opendir := fun p =>
      if p = "/a" then
        Except.ok [{ name := "b", dtype := DType.dir }, { name := "c", dtype := DType.dir }]
      else if p = "/a/b" then Except.error EIO
      else Except.error ENOENT,
    realpath := fun p => some p,
    stat := fun _ => Except.ok FileKind.directory }

/-- C1 counterexample: the recursive call on child `b` returns
`Continue`, yet the walk removes the node just registered for `/a`
(handle 1 resolves to nothing afterwards), never processes the sibling
`c` (handle 3 was never registered: the kernel log holds only the
registration of `/a` and its removal), and propagates `Continue` —
refuting "the node just registered is kept and the remaining sibling
entries are still processed". -/
theorem walkTree_continue_aborts_cex :
    walkTree envC1 5 "/a" none true [] st0 =
      some (ERR_CONTINUE,
        { watches := [], limitReached := false, msgs := 0, callbacks := [],
          kernel := [KOp.add 1 "/a", KOp.rm 1] }) ∧
    tableGet
      { watches := [], limitReached := false, msgs := 0, callbacks := [],
        kernel := [KOp.add 1 "/a", KOp.rm 1] } 1 = none := by
  constructor <;> decide

/-- C1 witness: `walkLoop_child_outcome` applied at a concrete loop
state whose child walk yields `Continue` — the subtree is removed and
`Continue` propagates. -/
theorem walkLoop_child_outcome_witness :
    walkLoop envC1 (fun _ _ st => some (ERR_CONTINUE, st)) "/a" 1
      [{ name := "b", dtype := DType.dir }] st0 =
      some (ERR_CONTINUE, rmWatch 1 true st0) :=
  (walkLoop_child_outcome envC1 (fun _ _ st => some (ERR_CONTINUE, st)) "/a" 1 "b" []
    st0 st0 ERR_CONTINUE (by decide) rfl).1 (by decide)

/-! ### add_watch alias handling (C2) -/

/-- Environment for the C2 theorem: the kernel answers handle 7 for
every path; canonicalization is the identity. -/
def envC2 : Env :=
  { addwatch := fun _ => Except.ok 7,
    opendir := fun _ => Except.error ENOENT,
    realpath := fun p => some p,
    stat := fun _ => Except.ok FileKind.directory }

/-- Pre-state for C2: handle 7 already owns a node whose single alias is
`/d` — the very path being registered again. -/
def sC2 : State :=
  { watches := [(7, { wd := 7, parent := none, kids := [], paths := ["/d"] })],
    limitReached := false, msgs := 0, callbacks := [], kernel := [] }

/-- C2, evaluated at the failing input: registering `/d` again while
handle 7 already has alias `/d` does NOT return `Ignore` with the alias
set unchanged; the alias loop skips string-identical aliases
(`strcmp(wp->path, path_buf) != 0` guards the real-path comparison), so
the path falls through the intersection scan and is appended as a
duplicate alias, and the handle is returned as success. -/
theorem addWatch_duplicate_alias_bug :
    (addWatch envC2 "/d" none sC2).1 = 7 ∧
    (tableGet (addWatch envC2 "/d" none sC2).2 7).map (fun n => n.paths) =
      some ["/d", "/d"] := by
  constructor <;> decide

/-! ### Event processing (C4, C5, C10) -/

/-- Environment for the C4 theorem (the event processing never reaches
the environment in this scenario). -/
def envC4 : Env :=
  { addwatch := fun _ => Except.error EPERM,
    opendir := fun _ => Except.error ENOENT,
    realpath := fun p => some p,
    stat := fun _ => Except.ok FileKind.directory }

/-- Pre-state for C4: node 1's child collection holds one tombstoned
(NULL) slot, exactly what an earlier removal leaves behind. -/
def sC4 : State :=
  { watches := [(1, { wd := 1, parent := none, kids := [none], paths := ["/r"] })],
    limitReached := false, msgs := 0, callbacks := [], kernel := [] }

/-- A directory-typed delete event under node 1. -/
def evC4 : InotifyEvent :=
  { wd := 1, isDir := true, create := false, movedTo := false,
    del := true, movedFrom := false, ignored := false, qOverflow := false,
    name := some "x", raw := 512 }

/-- C4, evaluated at the failing input: a directory-typed delete event
on a node whose child collection contains a tombstoned slot reaches
`array_size(kid->paths)` with `kid == NULL` — the null test at line 400
comes only AFTER that dereference — so the scan is not total: the model
yields `none` (undefined behaviour) instead of skipping the slot. -/
theorem processEvent_tombstone_crash :
    processInotifyEvent envC4 1 evC4 sC4 = none := by
  decide

/-- Environment for the C5 theorems: opening the created directory
succeeds but the kernel registration fails with `EPERM`, so the rewalk
returns `Abort`. -/
def envC5 : Env :=
  { addwatch := fun _ => Except.error EPERM,
    opendir := fun _ => Except.ok [],
    realpath := fun p => some p,
    stat := fun _ => Except.ok FileKind.directory }

/-- Pre-state for C5: node 1 watches `/r`. -/
def sC5 : State :=
  { watches := [(1, { wd := 1, parent := none, kids := [], paths := ["/r"] })],
    limitReached := false, msgs := 0, callbacks := [], kernel := [] }

/-- A directory-typed create event for `x` under node 1. -/
def evC5 : InotifyEvent :=
  { wd := 1, isDir := true, create := true, movedTo := false,
    del := false, movedFrom := false, ignored := false, qOverflow := false,
    name := some "x", raw := 256 }

/-- C5 counterexample: the rewalk triggered by the create event returns
the fatal outcome `Abort`, and the batch does stop with failure — but
the event's node is NOT torn down: handle 1 still resolves to its node
in the final state (which differs from the pre-state only by the logged
callback), refuting "the current node's whole subtree is torn down". -/
theorem processEvent_fatal_keeps_node_cex :
    processInotifyInput envC5 1 [evC5] sC5 =
      some (false, pushCallback sC5 "/r/x" 256) ∧
    tableGet (pushCallback sC5 "/r/x" 256) 1 =
      some { wd := 1, parent := none, kids := [], paths := ["/r"] } := by
  constructor <;> decide

/-- C5 (amended): when the rewalk for a directory-typed create/move-in
event returns a fatal outcome (neither `Ignore` nor `Continue` nor a
valid handle), `process_inotify_event` stops the batch with a failure
result immediately; the resulting state is exactly the state the failed
`walk_tree` run produced — the event processor itself tears nothing
down (any unwinding happened inside `walk_tree`, and only of nodes that
walk registered). -/
theorem processInput_fatal_stops (env : Env) (fuel : Nat) (ev : InotifyEvent)
    (rest : List InotifyEvent) (s s' : State) (node : WatchNode) (p n : String)
    (r : Int)
    (hni : ev.ignored = false) (hnq : ev.qOverflow = false)
    (hnode : tableGet s ev.wd = some node)
    (hpaths : node.paths = [p])
    (hdir : ev.isDir = true)
    (hcm : ev.create = true ∨ ev.movedTo = true)
    (hname : ev.name = some n)
    (hwalk : walkTree env fuel (p ++ "/" ++ n) (some ev.wd) true []
      (pushCallback s (p ++ "/" ++ n) ev.raw) = some (r, s'))
    (hfatal : r < 0 ∧ r ≠ ERR_IGNORE ∧ r ≠ ERR_CONTINUE) :
    processInotifyInput env fuel (ev :: rest) s = some (false, s') := by
  have hev : processInotifyEvent env fuel ev s = some (false, s') := by
    unfold processInotifyEvent
    rw [hnode]
    dsimp only
    unfold processAliases
    rw [hnode]
    dsimp only
    rw [hpaths, hname]
    have hlen : (0 : Nat) < [p].length := by simp
    have hcond : ev.isDir = true ∧ (ev.create = true ∨ ev.movedTo = true) := ⟨hdir, hcm⟩
    simp only [if_pos hlen, List.getD_cons_zero, if_pos hcond, hwalk, if_pos hfatal]
  unfold processInotifyInput
  simp only [hni, hnq, hev]
  simp

/-- C5 witness: `processInput_fatal_stops` at the concrete scenario of
the counterexample — the batch stops with failure in the walk's exact
output state. -/
theorem processInput_fatal_stops_witness :
    processInotifyInput envC5 1 [evC5] sC5 =
      some (false, pushCallback sC5 "/r/x" 256) :=
  processInput_fatal_stops envC5 1 evC5 [] sC5 (pushCallback sC5 "/r/x" 256)
    { wd := 1, parent := none, kids := [], paths := ["/r"] } "/r" "x" ERR_ABORT
    rfl rfl rfl rfl rfl (Or.inl rfl) rfl (by decide) (by decide)

/-- Variant of `walk_tree` with the mount check REMOVED: the reference definition
C10 compares the event-triggered rewalk against.  Identical to
`walkTree` except that no mount set exists at all. -/
def walkTreeNM (env : Env) : Nat → String → Option Int → Bool → State →
    Option (Int × State)
  | 0, _, _, _, _ => none
  | fuel + 1, path, parent, recursive, s =>
    match (if recursive then some (env.opendir path) else none) with
    | some (Except.error e) =>
      if e = EACCES ∨ e = ENOENT ∨ e = ENOTDIR then some (ERR_IGNORE, s)
      else some (ERR_CONTINUE, s)
    | some (Except.ok entries) =>
      let r := addWatch env path parent s
      if r.1 < 0 then some r
      else walkLoop env
        (fun p par st => walkTreeNM env fuel p par recursive st)
        path r.1 entries r.2
    | none =>
      some (addWatch env path parent s)

/-- Congruence: `walkLoop` only depends on the child-walk function extensionally. -/
lemma walkLoop_congr (env : Env)
    (w1 w2 : String → Option Int → State → Option (Int × State))
    (h : ∀ p par st, w1 p par st = w2 p par st) (path : String) (id : Int) :
    ∀ (entries : List Dirent) (s : State),
      walkLoop env w1 path id entries s = walkLoop env w2 path id entries s := by
  intro entries
  induction entries with
  | nil => intro s; rfl
  | cons e rest ih =>
    intro s
    simp only [walkLoop]
    simp only [h, ih]

/-- A walk with the empty mount set is exactly the mount-check-free
walk: the prefix loop over `[]` never fires, at every depth. -/
lemma walkTree_empty_mounts (env : Env) :
    ∀ (fuel : Nat) (path : String) (parent : Option Int) (recursive : Bool)
      (s : State),
      walkTree env fuel path parent recursive [] s =
        walkTreeNM env fuel path parent recursive s := by
  intro fuel
  induction fuel with
  | zero => intro _ _ _ _; rfl
  | succ n ih =>
    intro path parent recursive s
    simp only [walkTree, walkTreeNM, List.any_nil, Bool.false_eq_true, if_false]
    cases hs : (if recursive then some (env.opendir path) else none) with
    | none => rfl
    | some res =>
      cases res with
      | error e => rfl
      | ok entries =>
        by_cases hneg : (addWatch env path parent s).1 < 0
        · simp [hneg]
        · simp only [if_neg hneg]
          exact walkLoop_congr env _ _ (fun p par st => ih p par recursive st)
            path (addWatch env path parent s).1 entries (addWatch env path parent s).2

/-- C10: the rewalk `process_inotify_event` runs for a directory-typed
create/move-in event is `walk_tree(path_len, node, true, NULL)` — the
mount set is `NULL` (the empty set), so the auto-watching of
subdirectories created after registration performs no mount-boundary
check at all, whatever mount prefixes the original `watch` call had:
whenever the mount-check-free walk `walkTreeNM` finishes and leaves the
event node's alias list as it found it (as every fresh-handle
registration does), the whole event processing is determined by that
mount-free walk — failure with its state on a fatal outcome, success
with its state otherwise. -/
theorem processEvent_create_no_mount_check (env : Env) (fuel : Nat)
    (ev : InotifyEvent) (s s' : State) (node node' : WatchNode) (p n : String)
    (r : Int)
    (hnode : tableGet s ev.wd = some node)
    (hpaths : node.paths = [p])
    (hdir : ev.isDir = true)
    (hcm : ev.create = true ∨ ev.movedTo = true)
    (hnd : ev.del = false) (hnm : ev.movedFrom = false)
    (hname : ev.name = some n)
    (hwalk : walkTreeNM env fuel (p ++ "/" ++ n) (some ev.wd) true
      (pushCallback s (p ++ "/" ++ n) ev.raw) = some (r, s'))
    (hstable : tableGet s' ev.wd = some node')
    (hstable2 : node'.paths = [p]) :
    processInotifyEvent env fuel ev s =
      (if r < 0 ∧ r ≠ ERR_IGNORE ∧ r ≠ ERR_CONTINUE then some (false, s')
       else some (true, s')) := by
  cases fuel with
  | zero => simp [walkTreeNM] at hwalk
  | succ m =>
    unfold processInotifyEvent
    rw [hnode]
    dsimp only
    unfold processAliases
    rw [hnode]
    dsimp only
    rw [hpaths, hname]
    have hlen : (0 : Nat) < [p].length := by simp
    have hcond : ev.isDir = true ∧ (ev.create = true ∨ ev.movedTo = true) := ⟨hdir, hcm⟩
    rw [walkTree_empty_mounts env]
    simp only [if_pos hlen, List.getD_cons_zero, if_pos hcond, hwalk]
    by_cases hfat : r < 0 ∧ r ≠ ERR_IGNORE ∧ r ≠ ERR_CONTINUE
    · simp only [if_pos hfat]
    · simp only [if_neg hfat]
      have hdel : ¬ (ev.isDir = true ∧ (ev.del = true ∨ ev.movedFrom = true)) := by
        rw [hnd, hnm]
        simp
      simp only [deleteBranch, if_neg hdel]
      unfold processAliases
      rw [hstable]
      dsimp only
      rw [hstable2]
      simp

/-- Environment for the C10 witness: the created subdirectory `/r/x` is
empty and the kernel hands out the fresh handle 9 for it. -/
def envC10 : Env :=
  { addwatch := fun _ => Except.ok 9,
    opendir := fun _ => Except.ok [],
    realpath := fun p => some p,
    stat := fun _ => Except.ok FileKind.directory }

/-- Pre-state for the C10 witness: node 1 watches `/r`. -/
def sC10 : State :=
  { watches := [(1, { wd := 1, parent := none, kids := [], paths := ["/r"] })],
    limitReached := false, msgs := 0, callbacks := [], kernel := [] }

/-- A directory-typed create event for `x` under node 1. -/
def evC10 : InotifyEvent :=
  { wd := 1, isDir := true, create := true, movedTo := false,
    del := false, movedFrom := false, ignored := false, qOverflow := false,
    name := some "x", raw := 256 }

/-- Final state of the C10 witness scenario: the mount-free rewalk
registered `/r/x` under fresh handle 9, attached as a child of node 1. -/
def stC10fin : State :=
  { watches := [(1, { wd := 1, parent := none, kids := [some 9], paths := ["/r"] }),
      (9, { wd := 9, parent := some 1, kids := [], paths := ["/r/x"] })],
    limitReached := false, msgs := 0,
    callbacks := [("/r/x", 256)],
    kernel := [KOp.add 9 "/r/x"] }

/-- C10 witness: `processEvent_create_no_mount_check` at the concrete
create event — the rewalk succeeds with handle 9 and the event
processing ends in the mount-free walk's exact output state. -/
theorem processEvent_create_no_mount_check_witness :
    processInotifyEvent envC10 2 evC10 sC10 = some (true, stC10fin) := by
  have h := processEvent_create_no_mount_check envC10 2 evC10 sC10 stC10fin
    { wd := 1, parent := none, kids := [], paths := ["/r"] }
    { wd := 1, parent := none, kids := [some 9], paths := ["/r"] }
    "/r" "x" 9 rfl rfl rfl (Or.inl rfl) rfl rfl rfl (by decide) (by decide) rfl
  rw [h, if_neg (by decide)]

end Inotify

